import Mathlib

/-!
Shallow embedding of the transactional catalog (src/unnamed/part_000,
`CatalogSet`) and the versioned column segment (src/src/storage/segment.cpp,
`Segment`) of the repository, together with theorems checking the
specification's claims about them.

Version chains are embedded as Lean lists, newest version first: the C++
`child` pointer of a node is the tail of the list starting at that node, and
the `parent` pointer of the node at index i is the node at index i - 1.
The per-set `unordered_map<string, unique_ptr<...>> data` becomes a function
`String → Option (List AbstractCatalogEntry)` (`none` = name absent).
Exceptions become `Except` / explicit error results; a C++ `assert` is
embedded as an `assertionFailure` error (the spec's `AssertionFailure`
error kind).
-/

namespace Duckdb

/-- Modelled from the spec: `TRANSACTION_ID_START` lives in a constants
header that is not part of the sources; the spec only requires that
transaction ids are drawn from a range starting at it, disjoint from (above)
all commit timestamps.  The concrete value is irrelevant to every claim. -/
def TRANSACTION_ID_START : Nat := 2 ^ 62

/-- A transaction, as used by the catalog and segment code: its id
(≥ TRANSACTION_ID_START while in flight) and its snapshot start time. -/
structure Transaction where
  transaction_id : Nat
  start_time : Nat
  deriving Repr, DecidableEq

/-- One version node of a catalog version chain
(`AbstractCatalogEntry` in the source): name, dual-range timestamp,
deleted flag, and an abstract stand-in for the kind-specific payload.
The `child`/`parent` pointers are represented by list structure, and the
`set` back-pointer is implicit. -/
structure AbstractCatalogEntry where
  name : String
  timestamp : Nat
  deleted : Bool
  payload : Nat
  deriving Repr, DecidableEq

/-- The `data` map of a `CatalogSet`: name to head-of-chain
(the chain is the whole child-linked list, newest first).
In every reachable state a present chain is nonempty. -/
def CatalogData : Type := String → Option (List AbstractCatalogEntry)

/-- Point update of the `data` map (`data[name] = ...`). -/
def updateData (s : CatalogData) (n : String) (c : List AbstractCatalogEntry) :
    CatalogData :=
  fun m => if m = n then some c else s m

/-- The error thrown by the catalog code:
`TransactionException("Catalog write-write conflict!")`. -/
inductive CatalogError where
  | writeWriteConflict
  deriving Repr, DecidableEq

/-- What `transaction.PushCatalogEntry(value->child.get())` records: the
pushed node is identified by its set key and its index in that key's chain
(the pushed node always has a parent, so `idx ≥ 1`; right after a
`CreateEntry` splice it is at index 1, directly below the new head). -/
structure CatalogUndoEntry where
  name : String
  idx : Nat
  deriving Repr, DecidableEq

/-- `CatalogSet::CreateEntry` (src/unnamed/part_000, lines 9-52).
Returns the C++ outcome (`Except` for the throw, `Bool` for the return
value), the state of the `data` map when control leaves the function, and
the entry pushed into the transaction's undo buffer, if any.
The `some []` branch is unreachable (chains are nonempty in every reachable
state) and is mapped to the no-op `false` return. -/
def CatalogSet.CreateEntry (t : Transaction) (name : String)
    (value : AbstractCatalogEntry) (s : CatalogData) :
    (Except CatalogError Bool) × CatalogData × Option CatalogUndoEntry :=
  match s name with
  | none =>
      -- entry has never been created: first insert a dummy deleted entry
      -- (timestamp 0) so older transactions do not see the new one yet,
      -- then splice the new version on top of it
      let dummy : AbstractCatalogEntry :=
        { name := name, timestamp := 0, deleted := true, payload := 0 }
      let v : AbstractCatalogEntry := { value with timestamp := t.transaction_id }
      (.ok true, updateData s name (v :: [dummy]), some { name := name, idx := 1 })
  | some chain =>
      match chain with
      | [] => (.ok false, s, none)
      | current :: _ =>
        if TRANSACTION_ID_START ≤ current.timestamp then
          -- current version has been written to by an active transaction
          (.error .writeWriteConflict, s, none)
        else if !current.deleted then
          -- a committed, live version exists: conflict, surfaced as false
          (.ok false, s, none)
        else
          let v : AbstractCatalogEntry := { value with timestamp := t.transaction_id }
          (.ok true, updateData s name (v :: chain), some { name := name, idx := 1 })

/-- `CatalogSet::DropEntry` (src/unnamed/part_000, lines 54-57): the source
is a stub (`// FIXME implement`) that returns false and touches nothing. -/
def CatalogSet.DropEntry (_t : Transaction) (_name : String) (s : CatalogData) :
    Bool × CatalogData :=
  (false, s)

/-- The version-chain walk of `CatalogSet::EntryExists`
(src/unnamed/part_000, lines 70-81): starting from the head, stop at a node
created by this transaction or committed before its start time, or at the
terminal node (no child); answer from that node's deleted flag. -/
def entryExistsLoop (t : Transaction) : List AbstractCatalogEntry → Bool
  | [] => false
  | [cur] => !cur.deleted
  | cur :: next :: rest =>
    if cur.timestamp = t.transaction_id then !cur.deleted
    else if cur.timestamp < t.start_time then !cur.deleted
    else entryExistsLoop t (next :: rest)

/-- `CatalogSet::EntryExists` (src/unnamed/part_000, lines 59-83). -/
def CatalogSet.EntryExists (t : Transaction) (s : CatalogData) (name : String) :
    Bool :=
  match s name with
  | none => false
  | some chain => entryExistsLoop t chain

/-- The version-chain walk of `CatalogSet::GetEntry`
(src/unnamed/part_000, lines 94-110): the same traversal as
`EntryExists`, returning the chosen node unless it is deleted. -/
def getEntryLoop (t : Transaction) :
    List AbstractCatalogEntry → Option AbstractCatalogEntry
  | [] => none
  | [cur] => if cur.deleted then none else some cur
  | cur :: next :: rest =>
    if cur.timestamp = t.transaction_id then
      if cur.deleted then none else some cur
    else if cur.timestamp < t.start_time then
      if cur.deleted then none else some cur
    else getEntryLoop t (next :: rest)

/-- `CatalogSet::GetEntry` (src/unnamed/part_000, lines 85-111). -/
def CatalogSet.GetEntry (t : Transaction) (s : CatalogData) (name : String) :
    Option AbstractCatalogEntry :=
  match s name with
  | none => none
  | some chain => getEntryLoop t chain

/-- `CatalogSet::Undo` (src/unnamed/part_000, lines 113-126), on the undo
record for the node at index `u.idx` (its parent is at `u.idx - 1`).
If the parent has a parent (`2 ≤ u.idx`), reattach
`parent.parent.child := parent.child`, i.e. drop the node at `u.idx - 1`;
otherwise reattach into the map, `data[name] := parent.child`, i.e. drop
the head. Both splices erase the chain node at index `u.idx - 1`. -/
def CatalogSet.Undo (s : CatalogData) (u : CatalogUndoEntry) : CatalogData :=
  match s u.name with
  | none => s
  | some chain =>
    if 2 ≤ u.idx then
      updateData s u.name (chain.take (u.idx - 1) ++ chain.drop u.idx)
    else
      updateData s u.name (chain.drop u.idx)

/-- Modelled from the spec: `STANDARD_VECTOR_SIZE` lives in a constants
header that is not part of the sources; it is the fixed row count of one
vector. The concrete value is irrelevant to every claim. -/
def STANDARD_VECTOR_SIZE : Nat := 1024

/-- Modelled from the spec: `MAXIMUM_BLOCK` lives in a constants header
that is not part of the sources; block ids below it identify immutable
disk blocks, ids at or above it identify mutable in-memory (temporary)
blocks. The concrete value is irrelevant to every claim. -/
def MAXIMUM_BLOCK : Nat := 2 ^ 62

/-- One `UpdateInfo` node of a per-vector update chain
(src/src/storage/segment.cpp): its dual-range `version_number` and its
sorted `tuples[0..N)` of row offsets within the vector. The `next`
pointer is the tail of the list holding the node; the payload buffer and
back-references do not affect any claim and are omitted. -/
structure UpdateInfo where
  version_number : Nat
  tuples : List Int
  deriving Repr, DecidableEq

/-- Errors thrown by the segment code: the two
`TransactionException`s ("Conflict on update!", "Cannot create index with
outstanding updates") and the spec's `AssertionFailure` kind standing for
a failed C++ `assert`. -/
inductive SegmentError where
  | writeWriteConflict
  | outstandingUpdates
  | assertionFailure
  deriving Repr, DecidableEq

/-- The merge-join style intersection loop inside `CheckForConflicts`
(src/src/storage/segment.cpp, lines 16-34): walk the sorted `ids`
(shifted by `offset`) and the sorted `tuples` in lockstep; report whether
an equal pair is found (in the source, finding one throws).
The source loop runs only with both sequences nonempty
(`count ≥ 1`, `N ≥ 1`); on an empty sequence the model reports no
conflict, matching the `i == count` / `j == N` exits. -/
def mergeConflict (offset : Int) : List Int → List Int → Bool
  | [], _ => false
  | _ :: _, [] => false
  | id0 :: is, t0 :: ts =>
    if id0 - offset = t0 then true
    else if id0 - offset < t0 then mergeConflict offset is (t0 :: ts)
    else mergeConflict offset (id0 :: is) ts
  termination_by is ts => is.length + ts.length

/-- `CheckForConflicts` (src/src/storage/segment.cpp, lines 8-39): walk the
update chain; a node of the current transaction becomes the `node` result,
a node of a concurrent writer (`version_number > start_time`) throws on a
tuple intersection, an older committed node is skipped; recurse on `next`. -/
def CheckForConflicts (chain : List UpdateInfo) (t : Transaction)
    (ids : List Int) (offset : Int) (node : Option UpdateInfo) :
    Except SegmentError (Option UpdateInfo) :=
  match chain with
  | [] => .ok node
  | info :: next =>
    if info.version_number = t.transaction_id then
      -- this UpdateInfo belongs to the current transaction
      CheckForConflicts next t ids offset (some info)
    else if t.start_time < info.version_number then
      -- potential conflict: merge-intersect ids against info.tuples
      if mergeConflict offset ids info.tuples then .error .writeWriteConflict
      else CheckForConflicts next t ids offset node
    else CheckForConflicts next t ids offset node

/-- A column segment (src/src/storage/segment.cpp): its block id, the
vector count, and the lazily allocated `versions` array of per-vector
update chains (`none` = not yet allocated; an empty list in a slot is the
null chain head). The data block bytes and statistics do not affect any
claim and are omitted. -/
structure Segment where
  block_id : Nat
  max_vector_count : Nat
  versions : Option (List (List UpdateInfo))
  deriving Repr, DecidableEq

/-- The chain head `versions[vector_index]` of a segment, as read by the
scan and update paths (`[]` when the array is unallocated or the slot is
null). -/
def Segment.versionChain (seg : Segment) (vector_index : Nat) :
    List UpdateInfo :=
  match seg.versions with
  | none => []
  | some arr => arr.getD vector_index []

/-- The `#ifdef DEBUG` loop of `Segment::Update`
(src/src/storage/segment.cpp, lines 50-54): the ids are strictly
ascending. -/
def idsSorted : List Int → Bool
  | [] => true
  | [_] => true
  | a :: b :: rest => decide (a < b) && idsSorted (b :: rest)

/-- `Segment::Update` (src/src/storage/segment.cpp, lines 41-81), up to the
dispatch into the typed in-place write (an overload outside this file):
assert the block is temporary, assert the ids are sorted, lazily allocate
`versions`, locate the vector of `ids[0]` (asserting `first_id ≥ offset`
and `vector_index < max_vector_count`; `ids` empty would read out of
bounds, embedded as a failed assertion), run `CheckForConflicts` on that
vector's chain, and hand the transaction's own node (if any) together with
the segment to the typed write. -/
def Segment.Update (seg : Segment) (t : Transaction) (ids : List Int)
    (offset : Int) : Except SegmentError (Option UpdateInfo × Segment) :=
  if seg.block_id < MAXIMUM_BLOCK then .error .assertionFailure
  else if !idsSorted ids then .error .assertionFailure
  else
    let arr : List (List UpdateInfo) :=
      match seg.versions with
      | none => List.replicate seg.max_vector_count []
      | some a => a
    match ids with
    | [] => .error .assertionFailure
    | first :: _ =>
      if first < offset then .error .assertionFailure
      else
        let vector_index : Nat := (first - offset).toNat / STANDARD_VECTOR_SIZE
        if seg.max_vector_count ≤ vector_index then .error .assertionFailure
        else
          let vector_offset : Int :=
            offset + (vector_index : Int) * (STANDARD_VECTOR_SIZE : Int)
          match CheckForConflicts (arr.getD vector_index []) t ids
              vector_offset none with
          | .error e => .error e
          | .ok node => .ok (node, { seg with versions := some arr })

/-- `Segment::ToTemporary` (src/src/storage/segment.cpp, lines 120-135):
if another thread already converted the segment, do nothing; otherwise
copy the block into a freshly allocated in-memory block and re-point
`block_id` at it. `newId` is the id handed out by the buffer manager's
`Allocate`; the `ManagedBuffer` constructor asserts `newId ≥
MAXIMUM_BLOCK`, which callers supply as a hypothesis. -/
def Segment.ToTemporary (seg : Segment) (newId : Nat) : Segment :=
  if MAXIMUM_BLOCK ≤ seg.block_id then seg
  else { seg with block_id := newId }

/-- The scan state handed through `Segment::IndexScan`: the number of
shared locks held (`state.locks`). -/
structure ColumnScanState where
  locks : Nat
  deriving Repr, DecidableEq

/-- `Segment::IndexScan` (src/src/storage/segment.cpp, lines 83-92): on
`vector_index = 0` push a shared lock onto the scan state (held for the
whole scan); then throw if this vector's version chain is present,
otherwise fetch the base data (the `Bool` result records that
`FetchBaseData` ran). -/
def Segment.IndexScan (seg : Segment) (state : ColumnScanState)
    (vector_index : Nat) :
    Except SegmentError (ColumnScanState × Bool) :=
  let state' : ColumnScanState :=
    if vector_index = 0 then { locks := state.locks + 1 } else state
  match seg.versions with
  | some arr =>
    if arr.getD vector_index [] ≠ [] then .error .outstandingUpdates
    else .ok (state', true)
  | none => .ok (state', true)

/-!
Claim theorems and their concrete sample inputs.
-/

/-- A dummy deleted sentinel node for name `n`, as `CreateEntry` builds it. -/
def dummyEntry (n : String) : AbstractCatalogEntry :=
  { name := n, timestamp := 0, deleted := true, payload := 0 }

/-- The chain-agreement behind C9: `EntryExists`'s loop answers `true`
exactly when `GetEntry`'s loop returns a node (both stop at the same node
and consult its deleted flag). -/
theorem entryExistsLoop_iff_getEntryLoop (t : Transaction)
    (c : List AbstractCatalogEntry) :
    entryExistsLoop t c = true ↔ (getEntryLoop t c).isSome = true := by
  induction c with
  | nil => simp [entryExistsLoop, getEntryLoop]
  | cons cur tail ih =>
    cases tail with
    | nil =>
      cases hd : cur.deleted <;> simp [entryExistsLoop, getEntryLoop, hd]
    | cons nxt rest =>
      by_cases h1 : cur.timestamp = t.transaction_id
      · cases hd : cur.deleted <;>
          simp [entryExistsLoop, getEntryLoop, h1, hd]
      · by_cases h2 : cur.timestamp < t.start_time
        · cases hd : cur.deleted <;>
            simp [entryExistsLoop, getEntryLoop, h1, h2, hd]
        · simpa [entryExistsLoop, getEntryLoop, h1, h2] using ih

/-- C9: for every transaction and name, `CatalogSet::EntryExists` answers
`true` exactly when `CatalogSet::GetEntry` returns a non-null entry: both
walk the version chain with the same visibility rule and answer from the
deleted flag of the same node. -/
theorem entryExists_iff_getEntry_isSome (t : Transaction) (s : CatalogData)
    (n : String) :
    CatalogSet.EntryExists t s n = true ↔
      (CatalogSet.GetEntry t s n).isSome = true := by
  unfold CatalogSet.EntryExists CatalogSet.GetEntry
  cases s n with
  | none => simp
  | some c => exact entryExistsLoop_iff_getEntryLoop t c

/-- C1: with the newest version of the name committed
(`timestamp < TRANSACTION_ID_START`) and not deleted, `CreateEntry`
returns `false` (no error, no state change); with the newest version an
uncommitted write of a concurrent transaction
(`timestamp ≥ TRANSACTION_ID_START`), it throws the write-write
conflict. -/
theorem createEntry_committed_live_false_concurrent_throws
    (t : Transaction) (n : String) (v : AbstractCatalogEntry)
    (s : CatalogData) (e : AbstractCatalogEntry)
    (rest : List AbstractCatalogEntry) (h : s n = some (e :: rest)) :
    (e.timestamp < TRANSACTION_ID_START → e.deleted = false →
      CatalogSet.CreateEntry t n v s = (.ok false, s, none)) ∧
    (TRANSACTION_ID_START ≤ e.timestamp → e.timestamp ≠ t.transaction_id →
      CatalogSet.CreateEntry t n v s =
        (.error .writeWriteConflict, s, none)) := by
  constructor
  · intro hlt hdel
    simp [CatalogSet.CreateEntry, h, hdel, Nat.not_le.mpr hlt]
  · intro hge _
    simp [CatalogSet.CreateEntry, h, hge]

def txnC1 : Transaction := ⟨2 ^ 62, 100⟩

def valC1 : AbstractCatalogEntry := ⟨"tbl", 0, false, 7⟩

def setC1a : CatalogData :=
  fun m => if m = "tbl" then
    some [⟨"tbl", 5, false, 1⟩, dummyEntry "tbl"] else none

def setC1b : CatalogData :=
  fun m => if m = "tbl" then
    some [⟨"tbl", 2 ^ 62 + 1, false, 1⟩, dummyEntry "tbl"] else none

/-- C1 witness: both behaviors at concrete inputs. -/
theorem createEntry_committed_live_false_concurrent_throws_witness :
    CatalogSet.CreateEntry txnC1 "tbl" valC1 setC1a = (.ok false, setC1a, none) ∧
    CatalogSet.CreateEntry txnC1 "tbl" valC1 setC1b =
      (.error .writeWriteConflict, setC1b, none) :=
  ⟨(createEntry_committed_live_false_concurrent_throws txnC1 "tbl" valC1 setC1a
      ⟨"tbl", 5, false, 1⟩ [dummyEntry "tbl"] rfl).1 (by decide) rfl,
   (createEntry_committed_live_false_concurrent_throws txnC1 "tbl" valC1 setC1b
      ⟨"tbl", 2 ^ 62 + 1, false, 1⟩ [dummyEntry "tbl"] rfl).2
      (by decide) (by decide)⟩

def txnC2 : Transaction := ⟨2 ^ 62 + 3, 100⟩

def headC2 : AbstractCatalogEntry := ⟨"tbl", 2 ^ 62 + 3, false, 1⟩

def valC2 : AbstractCatalogEntry := ⟨"tbl", 0, false, 9⟩

def setC2 : CatalogData :=
  fun m => if m = "tbl" then some [headC2, dummyEntry "tbl"] else none

/-- C2 counterexample: the head of "tbl" is this very transaction's own
uncommitted version (`headC2.timestamp = txnC2.transaction_id`), yet
`CreateEntry` throws the write-write conflict instead of performing an
idempotent replace — the code never compares the head's timestamp with
the caller's transaction id. -/
theorem createEntry_own_head_not_idempotent_cex :
    setC2 "tbl" = some [headC2, dummyEntry "tbl"] ∧
    headC2.timestamp = txnC2.transaction_id ∧
    (CatalogSet.CreateEntry txnC2 "tbl" valC2 setC2).1 =
      .error CatalogError.writeWriteConflict := by
  refine ⟨rfl, rfl, ?_⟩
  simp [CatalogSet.CreateEntry, setC2, headC2, txnC2, TRANSACTION_ID_START]

/-- C2 amended: when the current head of the name is an uncommitted version
created by the same transaction (`head.timestamp = T.transaction_id`, which
is `≥ TRANSACTION_ID_START` while in flight), `CreateEntry` does NOT
replace it idempotently — it throws the write-write conflict, exactly as
for a concurrent writer, and changes nothing. -/
theorem createEntry_own_uncommitted_head_throws (t : Transaction)
    (n : String) (v : AbstractCatalogEntry) (s : CatalogData)
    (e : AbstractCatalogEntry) (rest : List AbstractCatalogEntry)
    (h : s n = some (e :: rest)) (hown : e.timestamp = t.transaction_id)
    (hin : TRANSACTION_ID_START ≤ t.transaction_id) :
    CatalogSet.CreateEntry t n v s = (.error .writeWriteConflict, s, none) := by
  have hge : TRANSACTION_ID_START ≤ e.timestamp := hown ▸ hin
  simp [CatalogSet.CreateEntry, h, hge]

/-- C2 amended witness: the same concrete input as the counterexample. -/
theorem createEntry_own_uncommitted_head_throws_witness :
    CatalogSet.CreateEntry txnC2 "tbl" valC2 setC2 =
      (.error .writeWriteConflict, setC2, none) :=
  createEntry_own_uncommitted_head_throws txnC2 "tbl" valC2 setC2
    headC2 [dummyEntry "tbl"] rfl rfl (by decide)

def txnC3 : Transaction := ⟨2 ^ 62 + 9, 100⟩

def setC3 : CatalogData :=
  fun m => if m = "tbl3" then
    some [⟨"tbl3", 5, false, 2⟩, dummyEntry "tbl3"] else none

/-- C3: at a state whose newest visible version of "tbl3" is live, the
stubbed `DropEntry` returns `false` and leaves the set untouched, so
`EntryExists` still answers `true` afterwards — the drop semantics the
claim (and the spec's intended design) describes is not implemented. -/
theorem dropEntry_stub_returns_false :
    CatalogSet.EntryExists txnC3 setC3 "tbl3" = true ∧
    CatalogSet.DropEntry txnC3 "tbl3" setC3 = (false, setC3) ∧
    CatalogSet.EntryExists txnC3
      (CatalogSet.DropEntry txnC3 "tbl3" setC3).2 "tbl3" = true := by
  refine ⟨?_, rfl, ?_⟩ <;>
    simp [CatalogSet.EntryExists, CatalogSet.DropEntry, setC3,
      entryExistsLoop, txnC3]

/-- C10: whenever `CreateEntry` returns `false` or throws the write-write
conflict, the `data` map is exactly the input map and nothing was pushed
into the transaction's undo buffer: failure is atomic. -/
theorem createEntry_failure_atomic (t : Transaction) (n : String)
    (v : AbstractCatalogEntry) (s : CatalogData)
    (h : (CatalogSet.CreateEntry t n v s).1 = .ok false ∨
      (CatalogSet.CreateEntry t n v s).1 =
        .error CatalogError.writeWriteConflict) :
    (CatalogSet.CreateEntry t n v s).2.1 = s ∧
    (CatalogSet.CreateEntry t n v s).2.2 = none := by
  cases hs : s n with
  | none => simp [CatalogSet.CreateEntry, hs] at h
  | some chain =>
    cases chain with
    | nil => simp [CatalogSet.CreateEntry, hs]
    | cons cur rest =>
      by_cases h1 : TRANSACTION_ID_START ≤ cur.timestamp
      · simp [CatalogSet.CreateEntry, hs, h1]
      · cases hd : cur.deleted
        · simp [CatalogSet.CreateEntry, hs, h1, hd]
        · simp [CatalogSet.CreateEntry, hs, h1, hd] at h

/-- C10 witness: atomic failure at the concrete committed-live input. -/
theorem createEntry_failure_atomic_witness :
    (CatalogSet.CreateEntry txnC1 "tbl" valC1 setC1a).2.1 = setC1a ∧
    (CatalogSet.CreateEntry txnC1 "tbl" valC1 setC1a).2.2 = none :=
  createEntry_failure_atomic txnC1 "tbl" valC1 setC1a
    (Or.inl (by simp [CatalogSet.CreateEntry, setC1a, TRANSACTION_ID_START]))

/-- C4: creating a never-before-seen name inserts the dummy deleted node
(timestamp 0) as the child of the new version, and while the creator is in
flight (its id is in the transaction-id range) every other transaction
whose snapshot started before the creator could commit sees nothing:
`GetEntry` returns no entry and `EntryExists` returns `false`. -/
theorem createEntry_fresh_name_invisible_to_others
    (t t2 : Transaction) (n : String) (v : AbstractCatalogEntry)
    (s : CatalogData) (hfresh : s n = none)
    (hin : TRANSACTION_ID_START ≤ t.transaction_id)
    (h2start : t2.start_time < TRANSACTION_ID_START)
    (h2id : t2.transaction_id ≠ t.transaction_id) :
    (CatalogSet.CreateEntry t n v s).2.1 n =
      some [{ v with timestamp := t.transaction_id }, dummyEntry n] ∧
    CatalogSet.GetEntry t2 (CatalogSet.CreateEntry t n v s).2.1 n = none ∧
    CatalogSet.EntryExists t2 (CatalogSet.CreateEntry t n v s).2.1 n =
      false := by
  have c1 : ¬(t.transaction_id = t2.transaction_id) := fun hh => h2id hh.symm
  have c2 : ¬(t.transaction_id < t2.start_time) :=
    Nat.not_lt.mpr (le_of_lt (lt_of_lt_of_le h2start hin))
  have hstate : (CatalogSet.CreateEntry t n v s).2.1 =
      updateData s n [{ v with timestamp := t.transaction_id }, dummyEntry n] := by
    simp [CatalogSet.CreateEntry, hfresh, dummyEntry]
  rw [hstate]
  refine ⟨by simp [updateData], ?_, ?_⟩
  · simp [CatalogSet.GetEntry, updateData, getEntryLoop, c1, c2, dummyEntry]
  · simp [CatalogSet.EntryExists, updateData, entryExistsLoop, c1, c2,
      dummyEntry]

def txnC4 : Transaction := ⟨2 ^ 62 + 5, 50⟩

def rdrC4 : Transaction := ⟨2 ^ 62 + 6, 40⟩

def valC4 : AbstractCatalogEntry := ⟨"newtbl", 0, false, 4⟩

def setC4 : CatalogData := fun _ => none

/-- C4 witness: the fresh creation at a concrete empty catalog set. -/
theorem createEntry_fresh_name_invisible_to_others_witness :
    (CatalogSet.CreateEntry txnC4 "newtbl" valC4 setC4).2.1 "newtbl" =
      some [{ valC4 with timestamp := txnC4.transaction_id },
        dummyEntry "newtbl"] ∧
    CatalogSet.GetEntry rdrC4
      (CatalogSet.CreateEntry txnC4 "newtbl" valC4 setC4).2.1 "newtbl" =
        none ∧
    CatalogSet.EntryExists rdrC4
      (CatalogSet.CreateEntry txnC4 "newtbl" valC4 setC4).2.1 "newtbl" =
        false :=
  createEntry_fresh_name_invisible_to_others txnC4 rdrC4 "newtbl" valC4
    setC4 rfl (by decide) (by decide) (by decide)

/-- C5: a successful `CreateEntry` followed by `CatalogSet::Undo` on the
node it pushed into the undo buffer restores the set observationally: for
every transaction and every name, `GetEntry` and `EntryExists` answer as
they did before the creation (for a previously existing name the old chain
is restored exactly; for a fresh name only the invisible dummy sentinel
remains). -/
theorem createEntry_undo_restores (t : Transaction) (n : String)
    (v : AbstractCatalogEntry) (s : CatalogData)
    (r : Except CatalogError Bool) (s' : CatalogData) (u : CatalogUndoEntry)
    (h : CatalogSet.CreateEntry t n v s = (r, s', some u))
    (t2 : Transaction) (m : String) :
    CatalogSet.GetEntry t2 (CatalogSet.Undo s' u) m =
      CatalogSet.GetEntry t2 s m ∧
    CatalogSet.EntryExists t2 (CatalogSet.Undo s' u) m =
      CatalogSet.EntryExists t2 s m := by
  cases hs : s n with
  | none =>
    simp only [CatalogSet.CreateEntry, hs, Prod.mk.injEq] at h
    obtain ⟨-, hsE, hu⟩ := h
    injection hu with hu2
    subst hu2
    subst hsE
    by_cases hm : m = n
    · subst hm
      constructor
      · simp [CatalogSet.Undo, CatalogSet.GetEntry, updateData, hs,
          getEntryLoop]
      · simp [CatalogSet.Undo, CatalogSet.EntryExists, updateData, hs,
          entryExistsLoop]
    · constructor
      · simp [CatalogSet.Undo, CatalogSet.GetEntry, updateData, hm]
      · simp [CatalogSet.Undo, CatalogSet.EntryExists, updateData, hm]
  | some chain =>
    cases chain with
    | nil => simp [CatalogSet.CreateEntry, hs] at h
    | cons cur rest =>
      by_cases h1 : TRANSACTION_ID_START ≤ cur.timestamp
      · simp [CatalogSet.CreateEntry, hs, h1] at h
      · cases hd : cur.deleted
        · simp [CatalogSet.CreateEntry, hs, h1, hd] at h
        · simp only [CatalogSet.CreateEntry, hs, h1, hd, if_false, if_true,
            Bool.not_true, Bool.false_eq_true, Prod.mk.injEq, ite_false,
            ite_true] at h
          obtain ⟨-, hsE, hu⟩ := h
          injection hu with hu2
          subst hu2
          subst hsE
          have hpt : ∀ m', CatalogSet.Undo
              (updateData s n
                ({ v with timestamp := t.transaction_id } :: cur :: rest))
              ⟨n, 1⟩ m' = s m' := by
            intro m'
            by_cases hm' : m' = n
            · subst hm'
              simp [CatalogSet.Undo, updateData, hs]
            · simp [CatalogSet.Undo, updateData, hm']
          have hfun : CatalogSet.Undo
              (updateData s n
                ({ v with timestamp := t.transaction_id } :: cur :: rest))
              ⟨n, 1⟩ = s := funext hpt
          rw [hfun]
          exact ⟨rfl, rfl⟩

def txnC5 : Transaction := ⟨2 ^ 62 + 11, 60⟩

def rdrC5 : Transaction := ⟨2 ^ 62 + 12, 30⟩

def valC5 : AbstractCatalogEntry := ⟨"t5", 0, false, 3⟩

def setC5 : CatalogData := fun _ => none

/-- C5 witness: create a fresh entry in an empty set, undo it, and observe
the same (absent) results as before. -/
theorem createEntry_undo_restores_witness :
    CatalogSet.GetEntry rdrC5
        (CatalogSet.Undo (CatalogSet.CreateEntry txnC5 "t5" valC5 setC5).2.1
          ⟨"t5", 1⟩) "t5" =
      CatalogSet.GetEntry rdrC5 setC5 "t5" ∧
    CatalogSet.EntryExists rdrC5
        (CatalogSet.Undo (CatalogSet.CreateEntry txnC5 "t5" valC5 setC5).2.1
          ⟨"t5", 1⟩) "t5" =
      CatalogSet.EntryExists rdrC5 setC5 "t5" :=
  createEntry_undo_restores txnC5 "t5" valC5 setC5 (.ok true)
    (CatalogSet.CreateEntry txnC5 "t5" valC5 setC5).2.1 ⟨"t5", 1⟩ rfl
    rdrC5 "t5"

/-- Soundness of the merge-intersection loop: when it reports a conflict,
some id really hits one of the node's tuples. -/
theorem mergeConflict_sound (off : Int) (is ts : List Int)
    (h : mergeConflict off is ts = true) : ∃ x ∈ is, x - off ∈ ts := by
  induction is, ts using mergeConflict.induct off with
  | case1 ts => simp [mergeConflict] at h
  | case2 i is => simp [mergeConflict] at h
  | case3 i is ts => exact ⟨i, by simp, by simp⟩
  | case4 i is t0 ts h1 h2 ih =>
    rw [mergeConflict, if_neg h1, if_pos h2] at h
    obtain ⟨x, hx, hxt⟩ := ih h
    exact ⟨x, by simp [hx], hxt⟩
  | case5 i is t0 ts h1 h2 ih =>
    rw [mergeConflict, if_neg h1, if_neg h2] at h
    obtain ⟨x, hx, hxt⟩ := ih h
    exact ⟨x, hx, by simp [hxt]⟩

/-- Completeness of the merge-intersection loop on strictly ascending
sequences (the sortedness the code asserts for `ids` and maintains for
`tuples`): any real hit is reported. -/
theorem mergeConflict_complete (off : Int) (is ts : List Int)
    (hpis : List.Pairwise (· < ·) is) (hpts : List.Pairwise (· < ·) ts)
    (x : Int) (hx : x ∈ is) (hxt : x - off ∈ ts) :
    mergeConflict off is ts = true := by
  induction is, ts using mergeConflict.induct off with
  | case1 ts => simp at hx
  | case2 i is => simp at hxt
  | case3 i is ts => simp [mergeConflict]
  | case4 i is t0 ts h1 h2 ih =>
    rw [mergeConflict, if_neg h1, if_pos h2]
    rcases List.mem_cons.mp hx with rfl | hx2
    · rcases List.mem_cons.mp hxt with he | hts
      · exact absurd he h1
      · have ht0x : t0 < x - off := (List.pairwise_cons.mp hpts).1 _ hts
        exact absurd (lt_trans h2 ht0x) (lt_irrefl _)
    · exact ih hpis.of_cons hpts hx2 hxt
  | case5 i is t0 ts h1 h2 ih =>
    rw [mergeConflict, if_neg h1, if_neg h2]
    have hix : i ≤ x := by
      rcases List.mem_cons.mp hx with rfl | hx2
      · exact le_refl x
      · exact le_of_lt ((List.pairwise_cons.mp hpis).1 _ hx2)
    have hxt2 : x - off ∈ ts := by
      rcases List.mem_cons.mp hxt with he | hts
      · exfalso
        have hle : t0 ≤ i - off := not_lt.mp h2
        exact h1 (by omega)
      · exact hts
    exact ih hpis hpts.of_cons hx hxt2

/-- If somewhere in the chain there is a node of another, concurrent
transaction whose tuples the translated ids hit, the chain walk of
`CheckForConflicts` ends in the write-write conflict, whatever `node`
accumulator it carries. -/
theorem checkForConflicts_error_of_hit (chain : List UpdateInfo)
    (t : Transaction) (ids : List Int) (offset : Int)
    (node : UpdateInfo) (hmem : node ∈ chain)
    (hvn : node.version_number ≠ t.transaction_id)
    (hconc : t.start_time < node.version_number)
    (hconf : mergeConflict offset ids node.tuples = true) :
    ∀ acc, CheckForConflicts chain t ids offset acc =
      .error .writeWriteConflict := by
  induction chain with
  | nil => simp at hmem
  | cons info rest ih =>
    intro acc
    by_cases h1 : info.version_number = t.transaction_id
    · have hr : node ∈ rest := by
        rcases List.mem_cons.mp hmem with h | h
        · subst h; exact absurd h1 hvn
        · exact h
      simpa [CheckForConflicts, h1] using ih hr _
    · by_cases h2 : t.start_time < info.version_number
      · by_cases h3 : mergeConflict offset ids info.tuples = true
        · simp [CheckForConflicts, h1, h2, h3]
        · have hr : node ∈ rest := by
            rcases List.mem_cons.mp hmem with h | h
            · subst h; exact absurd hconf h3
            · exact h
          simpa [CheckForConflicts, h1, h2, h3] using ih hr _
      · have hr : node ∈ rest := by
          rcases List.mem_cons.mp hmem with h | h
          · subst h; exact absurd hconc h2
          · exact h
        simpa [CheckForConflicts, h1, h2] using ih hr _

/-- A chain node of another, concurrent transaction whose tuples the
translated ids miss raises nothing: the walk continues behind it
unchanged. -/
theorem checkForConflicts_skip (info : UpdateInfo) (rest : List UpdateInfo)
    (t : Transaction) (ids : List Int) (off : Int) (acc : Option UpdateInfo)
    (hvn : info.version_number ≠ t.transaction_id)
    (hconc : t.start_time < info.version_number)
    (hmc : mergeConflict off ids info.tuples = false) :
    CheckForConflicts (info :: rest) t ids off acc =
      CheckForConflicts rest t ids off acc := by
  simp [CheckForConflicts, hvn, hconc, hmc]

/-- Reading any slot of a replicated-empty `versions` array yields the
null chain. -/
theorem getD_replicate_nil (k i : Nat) :
    (List.replicate k ([] : List UpdateInfo)).getD i [] = [] := by
  induction k generalizing i with
  | zero => simp [List.getD]
  | succ k ih =>
    cases i with
    | zero => simp [List.replicate_succ]
    | succ j => simp [List.replicate_succ, ih]

/-- The `versions` array `Segment::Update` works on (lazily allocated when
absent) agrees with `Segment.versionChain` at every slot. -/
theorem update_versions_getD (seg : Segment) (vi : Nat) :
    (match seg.versions with
      | none => List.replicate seg.max_vector_count ([] : List UpdateInfo)
      | some a => a).getD vi [] = seg.versionChain vi := by
  cases h : seg.versions with
  | none => simp only [Segment.versionChain, h, getD_replicate_nil]
  | some a => simp [Segment.versionChain, h]

/-- The debug check of `Segment::Update` accepts strictly ascending ids. -/
theorem idsSorted_of_pairwise (l : List Int)
    (hp : List.Pairwise (· < ·) l) : idsSorted l = true := by
  induction l with
  | nil => simp [idsSorted]
  | cons a tl ih =>
    cases tl with
    | nil => simp [idsSorted]
    | cons b tl2 =>
      have hab : a < b := (List.pairwise_cons.mp hp).1 _ (by simp)
      simpa [idsSorted, hab] using ih hp.of_cons

/-- C6: on a mutable segment with sorted ids targeting one vector, if some
node of the target vector's chain belongs to another transaction and is
concurrent (`version_number > start_time`), then a hit between the
offset-translated ids and that node's tuples makes `Segment::Update`
throw the write-write conflict; and when the two sorted sequences are
disjoint, that node raises no error and the conflict walk simply
continues with the next node of the chain. -/
theorem update_conflict_detection (seg : Segment) (t : Transaction)
    (ids : List Int) (offset : Int) (first : Int) (voff : Int)
    (node : UpdateInfo)
    (hblock : MAXIMUM_BLOCK ≤ seg.block_id)
    (hpids : List.Pairwise (· < ·) ids)
    (hfirst : ids.head? = some first)
    (hge : offset ≤ first)
    (hvi : (first - offset).toNat / STANDARD_VECTOR_SIZE <
      seg.max_vector_count)
    (hnode : node ∈ seg.versionChain
      ((first - offset).toNat / STANDARD_VECTOR_SIZE))
    (hvn : node.version_number ≠ t.transaction_id)
    (hconc : t.start_time < node.version_number)
    (htup : List.Pairwise (· < ·) node.tuples)
    (hvo : voff = offset +
      (((first - offset).toNat / STANDARD_VECTOR_SIZE : Nat) : Int) *
        (STANDARD_VECTOR_SIZE : Int)) :
    ((∃ x ∈ ids, x - voff ∈ node.tuples) →
      Segment.Update seg t ids offset = .error .writeWriteConflict) ∧
    (∀ rest acc, (∀ x ∈ ids, x - voff ∉ node.tuples) →
      CheckForConflicts (node :: rest) t ids voff acc =
        CheckForConflicts rest t ids voff acc) := by
  subst hvo
  constructor
  · rintro ⟨x, hx, hxt⟩
    obtain ⟨restIds, rfl⟩ : ∃ restIds, ids = first :: restIds := by
      cases ids with
      | nil => simp at hfirst
      | cons a tl =>
        have ha : a = first := by simpa using hfirst
        exact ⟨tl, by rw [ha]⟩
    have hmc : mergeConflict
        (offset + (((first - offset).toNat / STANDARD_VECTOR_SIZE : Nat) : Int)
          * (STANDARD_VECTOR_SIZE : Int)) (first :: restIds) node.tuples =
        true :=
      mergeConflict_complete _ _ _ hpids htup x hx hxt
    have herr := checkForConflicts_error_of_hit
      (seg.versionChain ((first - offset).toNat / STANDARD_VECTOR_SIZE))
      t (first :: restIds) _ node hnode hvn hconc hmc none
    have h1 : ¬seg.block_id < MAXIMUM_BLOCK := Nat.not_lt.mpr hblock
    have h2 : idsSorted (first :: restIds) = true :=
      idsSorted_of_pairwise _ hpids
    have h3 : ¬first < offset := not_lt.mpr hge
    have h4 : ¬seg.max_vector_count ≤
        (first - offset).toNat / STANDARD_VECTOR_SIZE := Nat.not_le.mpr hvi
    simp only [Segment.Update, h1, h2, h3, h4, if_false, Bool.not_true,
      ite_false, ite_true, Bool.false_eq_true, if_true]
    rw [update_versions_getD seg]
    rw [herr]
  · intro rest acc hdisj
    have hmc : mergeConflict
        (offset + (((first - offset).toNat / STANDARD_VECTOR_SIZE : Nat) : Int)
          * (STANDARD_VECTOR_SIZE : Int)) ids node.tuples = false := by
      cases hb : mergeConflict
          (offset + (((first - offset).toNat / STANDARD_VECTOR_SIZE : Nat) :
            Int) * (STANDARD_VECTOR_SIZE : Int)) ids node.tuples with
      | false => rfl
      | true =>
        obtain ⟨x, hx, hxt⟩ := mergeConflict_sound _ _ _ hb
        exact absurd hxt (hdisj x hx)
    exact checkForConflicts_skip node rest t ids _ acc hvn hconc hmc

def nodeC6 : UpdateInfo := ⟨2 ^ 62 + 40, [2, 5]⟩

def segC6 : Segment := ⟨2 ^ 62 + 8, 1, some [[nodeC6]]⟩

def txnC6 : Transaction := ⟨2 ^ 62 + 41, 50⟩

/-- C6 witness: a concurrent node with tuples `[2, 5]`; ids `[2, 7]` hit
it and `Update` throws; ids `[3, 7]` are disjoint from it and the walk
continues past the node. -/
theorem update_conflict_detection_witness :
    Segment.Update segC6 txnC6 [2, 7] 0 =
      .error SegmentError.writeWriteConflict ∧
    CheckForConflicts [nodeC6] txnC6 [3, 7] 0 none =
      CheckForConflicts [] txnC6 [3, 7] 0 none :=
  ⟨(update_conflict_detection segC6 txnC6 [2, 7] 0 2 0 nodeC6 (by decide)
      (by decide) rfl (by decide) (by decide) (by decide) (by decide)
      (by decide) (by decide) (by decide)).1 ⟨2, by decide, by decide⟩,
   (update_conflict_detection segC6 txnC6 [3, 7] 0 3 0 nodeC6 (by decide)
      (by decide) rfl (by decide) (by decide) (by decide) (by decide)
      (by decide) (by decide) (by decide)).2 [] none (by decide)⟩

def segC7 : Segment := ⟨0, 4, none⟩

def segC7b : Segment := ⟨2 ^ 62 + 7, 4, none⟩

def txnC7 : Transaction := ⟨2 ^ 62 + 20, 70⟩

/-- C7 counterexample: `Segment::Update` on an immutable segment
(`block_id = 0 < MAXIMUM_BLOCK`) does not invoke `ToTemporary`: it fails
its `block_id >= MAXIMUM_BLOCK` assertion outright, so no copy-on-write
promotion and no in-place write happen in the call. -/
theorem update_immutable_no_promotion_cex :
    segC7.block_id < MAXIMUM_BLOCK ∧
    Segment.Update segC7 txnC7 [5] 0 =
      .error SegmentError.assertionFailure := by
  exact ⟨by decide, rfl⟩

/-- C7 amended: `Update` requires the segment to already be mutable — on
`block_id < MAXIMUM_BLOCK` it fails the assertion instead of converting —
and the conversion is `ToTemporary`'s own job: fed a buffer-manager block
id (always `≥ MAXIMUM_BLOCK`), it re-points `block_id` above
`MAXIMUM_BLOCK`, and it leaves an already-mutable segment untouched. -/
theorem update_asserts_mutable_toTemporary_promotes (seg : Segment)
    (t : Transaction) (ids : List Int) (offset : Int) (newId : Nat) :
    (seg.block_id < MAXIMUM_BLOCK →
      Segment.Update seg t ids offset = .error .assertionFailure) ∧
    (seg.block_id < MAXIMUM_BLOCK → MAXIMUM_BLOCK ≤ newId →
      (Segment.ToTemporary seg newId).block_id = newId ∧
      MAXIMUM_BLOCK ≤ (Segment.ToTemporary seg newId).block_id) ∧
    (MAXIMUM_BLOCK ≤ seg.block_id →
      Segment.ToTemporary seg newId = seg) := by
  refine ⟨?_, ?_, ?_⟩
  · intro hlt
    simp [Segment.Update, hlt]
  · intro hlt hge
    have hn : ¬MAXIMUM_BLOCK ≤ seg.block_id := Nat.not_le.mpr hlt
    constructor <;> simp [Segment.ToTemporary, hn, hge]
  · intro hge
    simp [Segment.ToTemporary, hge]

/-- C7 amended witness: the assertion failure, the promotion, and the
idempotence at concrete segments. -/
theorem update_asserts_mutable_toTemporary_promotes_witness :
    Segment.Update segC7 txnC7 [5] 0 = .error .assertionFailure ∧
    ((Segment.ToTemporary segC7 (2 ^ 62 + 1)).block_id = 2 ^ 62 + 1 ∧
      MAXIMUM_BLOCK ≤ (Segment.ToTemporary segC7 (2 ^ 62 + 1)).block_id) ∧
    Segment.ToTemporary segC7b 3 = segC7b :=
  ⟨(update_asserts_mutable_toTemporary_promotes segC7 txnC7 [5] 0
      (2 ^ 62 + 1)).1 (by decide),
   (update_asserts_mutable_toTemporary_promotes segC7 txnC7 [5] 0
      (2 ^ 62 + 1)).2.1 (by decide) (by decide),
   (update_asserts_mutable_toTemporary_promotes segC7b txnC7 [5] 0 3).2.2
      (by decide)⟩

def uiC8 : UpdateInfo := ⟨2 ^ 62 + 30, [3]⟩

def segC8 : Segment := ⟨2 ^ 62 + 4, 2, some [[], [uiC8]]⟩

/-- C8 counterexample: a version chain is present in the segment (at
vector 1), yet `IndexScan` of vector 0 is not rejected: it pushes the
shared lock and fetches base data. The rejection is per scanned vector,
not "any version chain anywhere in the segment". -/
theorem indexScan_ok_despite_other_chain_cex :
    segC8.versionChain 1 ≠ [] ∧
    Segment.IndexScan segC8 ⟨0⟩ 0 = .ok (⟨1⟩, true) := by
  exact ⟨by decide, rfl⟩

/-- C8 amended: `IndexScan` rejects the scan exactly when the scanned
vector's own chain is present; otherwise it fetches base data. On the
first call (`vector_index = 0`) a shared lock is pushed onto the scan
state, before the chain check, so it is held for the whole scan (and even
when the scan throws). -/
theorem indexScan_per_vector_rejection (seg : Segment)
    (st : ColumnScanState) (vi : Nat) :
    Segment.IndexScan seg st vi =
      (if seg.versionChain vi = [] then
        .ok (⟨st.locks + (if vi = 0 then 1 else 0)⟩, true)
      else .error .outstandingUpdates) := by
  obtain ⟨l⟩ := st
  unfold Segment.IndexScan Segment.versionChain
  cases seg.versions with
  | none => by_cases hv : vi = 0 <;> simp [hv]
  | some arr =>
    by_cases hc : arr.getD vi [] = [] <;> by_cases hv : vi = 0 <;>
      simp [hc, hv]

end Duckdb
